import Mathlib

/-
Verification of the goradd/maps order-preserving container (SliceMap) and its
equality helper, shallowly embedded from the Go source (slice_map.go,
std_map.go, equaler.go; the current variant of each).

Modelling conventions:
* a Go map[K]V is an association list with unique keys (`aset` updates in
  place, `aerase` removes the binding); a nil Go map is `none`, an allocated
  one `some list`; reading a nil map yields the zero value, writing to it is
  a runtime panic;
* Go zero values are `Inhabited.default`;
* panics are `Except.error` with the panic message; total Go functions are
  total Lean functions;
* Go's `append(s[:i], s[i+1:]...)` and `slices.Delete(s, i, i+1)` are
  `take i ++ drop (i+1)`; the append/copy/assign insertion idiom is `insIdx`;
* `sort.Search` is embedded as Go's exact binary-search loop, so its behaviour
  on non-monotone predicates matches the source.
-/

namespace Goradd

/-- Go sort.Search loop body: binary search over [i, j) with the probe
h = (i+j)/2, narrowing to the smallest index at which f is true when f is
monotone; on other predicates it follows exactly the same probing as Go. -/
def sortSearchAux (f : Nat → Bool) (i j : Nat) : Nat :=
  if h : i < j then
    if f ((i + j) / 2) then sortSearchAux f i ((i + j) / 2)
    else sortSearchAux f ((i + j) / 2 + 1) j
  else i
termination_by j - i
decreasing_by
  · have h2 : i ≤ (i + j) / 2 := Nat.le_div_iff_mul_le (by omega) |>.2 (by omega)
    have h3 : (i + j) / 2 < j := Nat.div_lt_of_lt_mul (by omega)
    omega
  · have h3 : (i + j) / 2 < j := Nat.div_lt_of_lt_mul (by omega)
    omega

/-- Fuel-indexed version of the same loop, used for computation because it
recurses structurally and therefore reduces inside the kernel. The interval
width j - i strictly decreases on every iteration, so any fuel of at least
j - i makes it agree with sortSearchAux; sortSearch_eq_sortSearchAux proves
that. -/
def sortSearchGo (f : Nat → Bool) (i j fuel : Nat) : Nat :=
  match fuel with
  | 0 => i
  | fuel + 1 =>
      if i < j then
        if f ((i + j) / 2) then sortSearchGo f i ((i + j) / 2) fuel
        else sortSearchGo f ((i + j) / 2 + 1) j fuel
      else i

/-- Go sort.Search(n, f). -/
def sortSearch (n : Nat) (f : Nat → Bool) : Nat := sortSearchGo f 0 n n

variable {K V : Type} [DecidableEq K] [Inhabited K] [Inhabited V]

/-- Lookup in the association-list model of a Go map. -/
def alookup : List (K × V) → K → Option V
  | [], _ => none
  | (k2, v) :: rest, k => if k2 = k then some v else alookup rest k

/-- Go map assignment m[k] = v: update the binding in place, else append. -/
def aset : List (K × V) → K → V → List (K × V)
  | [], k, v => [(k, v)]
  | (k2, v2) :: rest, k, v =>
      if k2 = k then (k2, v) :: rest else (k2, v2) :: aset rest k v

/-- Go delete(m, k): remove the binding of k. -/
def aerase (l : List (K × V)) (k : K) : List (K × V) :=
  l.filter fun p => p.1 ≠ k

/-- Go map read in value position: zero value when the key is absent. -/
def aget (l : List (K × V)) (k : K) : V := (alookup l k).getD default

/-- len of a possibly-nil Go map. -/
def mapLen (o : Option (List (K × V))) : Nat := (o.getD []).length

/-- Linear scan removing the first occurrence, as in SliceMap.Delete's
no-comparator loop. -/
def eraseFirst [DecidableEq A] : List A → A → List A
  | [], _ => []
  | x :: xs, k => if x = k then xs else x :: eraseFirst xs k

/-- Go slice insertion idiom: append one slot, shift the tail up with copy,
write the element at position n. -/
def insIdx (n : Nat) (a : A) (l : List A) : List A := l.take n ++ a :: l.drop n

/-- SliceMap: a Go map plus a parallel key-order slice and an optional sort
function (slice_map.go). `items = none` is the nil (never written) map. -/
structure SliceMap (K V : Type) where
  items : Option (List (K × V))
  order : List K
  lessF : Option (K → K → V → V → Bool)

namespace SliceMap

/-- Zero value of SliceMap, as produced by new(SliceMap[K, V]). -/
def zeroValue (K V : Type) : SliceMap K V := ⟨none, [], none⟩

/-- SliceMap.Set on a non-nil receiver. Note the source declares oldVal but
never assigns the existing value to it, so the delete-old-location search
runs with the zero value; the embedding reproduces that. -/
def set (m : SliceMap K V) (key : K) (val : V) : SliceMap K V :=
  let its := m.items.getD []
  let ok := (alookup its key).isSome
  let oldVal : V := default
  match m.lessF with
  | some f =>
      let order1 :=
        if ok then
          let loc := sortSearch its.length fun n =>
            !(f (m.order.getD n default) key (aget its (m.order.getD n default)) oldVal)
          m.order.take loc ++ m.order.drop (loc + 1)
        else m.order
      let loc := sortSearch order1.length fun n =>
        f key (order1.getD n default) val (aget its (order1.getD n default))
      { items := some (aset its key val), order := insIdx loc key order1, lessF := m.lessF }
  | none =>
      { items := some (aset its key val),
        order := if ok then m.order else m.order ++ [key],
        lessF := m.lessF }

/-- SliceMap.Delete on a non-nil receiver: returns the removed value (zero if
absent) and the resulting map. -/
def delete (m : SliceMap K V) (key : K) : V × SliceMap K V :=
  let its := m.items.getD []
  match alookup its key with
  | none => (default, m)
  | some val =>
      let order1 :=
        match m.lessF with
        | some f =>
            let loc := sortSearch its.length fun n =>
              !(f (m.order.getD n default) key (aget its (m.order.getD n default)) val)
            m.order.take loc ++ m.order.drop (loc + 1)
        | none => eraseFirst m.order key
      (val, { items := some (aerase its key), order := order1, lessF := m.lessF })

/-- SliceMap.SetAt on a non-nil receiver. Panics when a sort function is set;
delegates to Set when index is at or past the end; otherwise removes an
existing key first, clamps the index, splices into the order slice, and
writes the map entry - which panics when the backing map is still nil. -/
def setAt (m : SliceMap K V) (index : Int) (key : K) (val : V) :
    Except String (SliceMap K V) :=
  match m.lessF with
  | some _ => .error "cannot use SetAt if you are also using a sort function"
  | none =>
      if (m.order.length : Int) ≤ index then .ok (m.set key val)
      else
        let m1 := if (alookup (m.items.getD []) key).isSome then (m.delete key).2 else m
        let itemsLen : Int := (mapLen m1.items : Int)
        let i1 : Int := if index ≤ -itemsLen then 0 else index
        let i2 : Int := if i1 < 0 then itemsLen + i1 else i1
        match m1.items with
        | none => .error "assignment to entry in nil map"
        | some its =>
            .ok { items := some (aset its key val),
                  order := insIdx i2.toNat key m1.order,
                  lessF := none }

/-- SliceMap.Get on a non-nil receiver. -/
def get (m : SliceMap K V) (key : K) : V := aget (m.items.getD []) key

/-- SliceMap.Load on a non-nil receiver. -/
def load (m : SliceMap K V) (key : K) : V × Bool :=
  (aget (m.items.getD []) key, (alookup (m.items.getD []) key).isSome)

/-- SliceMap.Has on a non-nil receiver. -/
def has (m : SliceMap K V) (key : K) : Bool :=
  (alookup (m.items.getD []) key).isSome

/-- SliceMap.GetAt on a non-nil receiver. -/
def getAt (m : SliceMap K V) (position : Int) : V :=
  if position < (m.order.length : Int) ∧ 0 ≤ position then
    aget (m.items.getD []) (m.order.getD position.toNat default)
  else default

/-- SliceMap.GetKeyAt on a non-nil receiver. -/
def getKeyAt (m : SliceMap K V) (position : Int) : K :=
  if position < (m.order.length : Int) ∧ 0 ≤ position then
    m.order.getD position.toNat default
  else default

/-- SliceMap.Keys on a non-nil receiver (a clone of the order slice). -/
def keys (m : SliceMap K V) : List K := m.order

/-- SliceMap.Values on a non-nil receiver. -/
def values (m : SliceMap K V) : List V :=
  m.order.map fun k => aget (m.items.getD []) k

/-- SliceMap.Len on a non-nil receiver. -/
def len (m : SliceMap K V) : Nat := mapLen m.items

/-- SliceMap.Clear on a non-nil receiver: drops items and order, keeps lessF. -/
def clear (m : SliceMap K V) : SliceMap K V := ⟨none, [], m.lessF⟩

/-- SliceMap.Range on a non-nil receiver, modelled as the list of (key, value)
pairs the callback is invoked on (including the one on which it returns
false, after which iteration stops). -/
def rangeVisits (m : SliceMap K V) (f : K → V → Bool) : List (K × V) :=
  match m.items with
  | none => []
  | some its =>
      let rec visit : List K → List (K × V)
        | [] => []
        | k :: rest =>
            if f k (aget its k) then (k, aget its k) :: visit rest
            else [(k, aget its k)]
      visit m.order

/-- Trailing-comma stripper for the character list of a reversed string,
modelling strings.TrimRight(s, ","). -/
def dropLeadCommas : List Char → List Char
  | [] => []
  | c :: rest => if c = ',' then dropLeadCommas rest else c :: rest

/-- strings.TrimRight(s, ","). -/
def trimRightCommas (s : String) : String :=
  String.mk (dropLeadCommas s.data.reverse).reverse

/-- SliceMap.String on a non-nil receiver; fk and fv stand for the %#v
renderings of keys and values. -/
def strRepr (fk : K → String) (fv : V → String) (m : SliceMap K V) : String :=
  let body := String.join ((m.rangeVisits fun _ _ => true).map
    fun p => fk p.1 ++ ":" ++ fv p.2 ++ ",")
  trimRightCommas ("\x7b" ++ body) ++ "\x7d"

/-- Gob encoding, which is external to this repository, is modelled as a
stream of typed values that round-trips faithfully: MarshalBinary emits one
map value then one key-slice value, and decoding consumes them in order. -/
inductive GobValue (K V : Type) where
  | mapv : List (K × V) → GobValue K V
  | slicev : List K → GobValue K V
  deriving DecidableEq

/-- SliceMap.MarshalBinary on a non-nil receiver: encode the plain map, then
the order slice; the sort function is not encoded. -/
def marshalBinary (m : SliceMap K V) : List (GobValue K V) :=
  [GobValue.mapv (m.items.getD []), GobValue.slicev m.order]

/-- SliceMap.UnmarshalBinary on a non-nil receiver: decode the map then the
order slice; only on success of both are the fields assigned. The receiver's
sort function is left untouched. -/
def unmarshalBinary (m : SliceMap K V) (data : List (GobValue K V)) :
    Except String (SliceMap K V) :=
  match data with
  | [GobValue.mapv its, GobValue.slicev ord] =>
      .ok { items := some its, order := ord, lessF := m.lessF }
  | _ => .error "gob: decode error"

end SliceMap

/- Nil-receiver wrappers: a *SliceMap pointer is `Option (SliceMap K V)`,
`none` being the nil pointer. Mutating entry points return `Except` so that
a panic on a nil receiver is observable as an error. -/

/-- Get on a possibly-nil receiver: nil yields the zero value. -/
def getN (m : Option (SliceMap K V)) (k : K) : V :=
  match m with
  | none => default
  | some m => m.get k

/-- Load on a possibly-nil receiver. -/
def loadN (m : Option (SliceMap K V)) (k : K) : V × Bool :=
  match m with
  | none => (default, false)
  | some m => m.load k

/-- Has on a possibly-nil receiver. -/
def hasN (m : Option (SliceMap K V)) (k : K) : Bool :=
  match m with
  | none => false
  | some m => m.has k

/-- GetAt on a possibly-nil receiver. -/
def getAtN (m : Option (SliceMap K V)) (p : Int) : V :=
  match m with
  | none => default
  | some m => m.getAt p

/-- GetKeyAt on a possibly-nil receiver. -/
def getKeyAtN (m : Option (SliceMap K V)) (p : Int) : K :=
  match m with
  | none => default
  | some m => m.getKeyAt p

/-- Keys on a possibly-nil receiver: nil yields a nil slice. -/
def keysN (m : Option (SliceMap K V)) : List K :=
  match m with
  | none => []
  | some m => m.keys

/-- Values on a possibly-nil receiver: nil yields a nil slice. -/
def valuesN (m : Option (SliceMap K V)) : List V :=
  match m with
  | none => []
  | some m => m.values

/-- Len on a possibly-nil receiver: nil yields 0. -/
def lenN (m : Option (SliceMap K V)) : Nat :=
  match m with
  | none => 0
  | some m => m.len

/-- Range on a possibly-nil receiver: nil visits nothing. -/
def rangeVisitsN (m : Option (SliceMap K V)) (f : K → V → Bool) : List (K × V) :=
  match m with
  | none => []
  | some m => m.rangeVisits f

/-- String on a possibly-nil receiver: nil yields the zero string. -/
def strReprN (fk : K → String) (fv : V → String) (m : Option (SliceMap K V)) : String :=
  match m with
  | none => ""
  | some m => SliceMap.strRepr fk fv m

/-- Set on a possibly-nil receiver: panics on nil. -/
def setN (m : Option (SliceMap K V)) (k : K) (v : V) :
    Except String (SliceMap K V) :=
  match m with
  | none => .error "cannot set a value on a nil SliceMap"
  | some m => .ok (m.set k v)

/-- Delete on a possibly-nil receiver: the source returns the zero value
without panicking on nil, leaving the receiver nil. -/
def deleteN (m : Option (SliceMap K V)) (k : K) :
    Except String (V × Option (SliceMap K V)) :=
  match m with
  | none => .ok (default, none)
  | some m => .ok ((m.delete k).1, some (m.delete k).2)

/-- Clear on a possibly-nil receiver: the source returns without panicking
on nil. -/
def clearN (m : Option (SliceMap K V)) : Except String (Option (SliceMap K V)) :=
  match m with
  | none => .ok none
  | some m => .ok (some m.clear)

/- Equality helper (equaler.go). Values of interface type any are modelled by
GoVal: a comparable int, a raw int slice (non-comparable, no Equal method),
and a user-defined slice type carrying an Equal method, as the Equaler
interface invites users to write; this one compares contents against both
its own type and the raw slice type. -/

/-- Dynamic values stored in a map with values of type any. -/
inductive GoVal where
  | vint : Int → GoVal
  | vslice : List Int → GoVal
  | veq : List Int → GoVal
  deriving DecidableEq

/-- The user-defined Equal method carried by GoVal.veq values. -/
def veqEqual (l : List Int) : GoVal → Bool
  | .veq l2 => l = l2
  | .vslice l2 => l = l2
  | _ => false

/-- Go interface equality a == b: equal only if the dynamic types are
identical and the dynamic values equal; comparing two values of the same
non-comparable dynamic type is a runtime panic; different dynamic types
compare unequal without panicking. -/
def goEq : GoVal → GoVal → Except String Bool
  | .vint a, .vint b => .ok (a = b)
  | .vslice _, .vslice _ => .error "runtime error: comparing uncomparable type"
  | .veq _, .veq _ => .error "runtime error: comparing uncomparable type"
  | _, _ => .ok false

/-- equalValues(a, b): delegate to a's Equal method when a implements
Equaler, otherwise fall back to built-in ==; b's Equal method is never
consulted. -/
def equalValues (a b : GoVal) : Except String Bool :=
  match a with
  | .veq l => .ok (veqEqual l b)
  | _ => goEq a b

/-- The body of StdMap.Equal's Range callback, iterating the argument map's
entries: each key must be present in the receiver with equalValues-equal
value; iteration stops at the first failure. -/
def rangeEqual (m : List (Nat × GoVal)) : List (Nat × GoVal) → Except String Bool
  | [] => .ok true
  | (k, v) :: rest =>
      match alookup m k with
      | none => .ok false
      | some v2 => do
          let e ← equalValues v v2
          if e then rangeEqual m rest else .ok false

/-- StdMap.Equal(m2) with receiver m: length check, then range over the
argument map m2 comparing with equalValues(v, v2) where v comes from the
argument and v2 from the receiver. -/
def stdEqual (m m2 : List (Nat × GoVal)) : Except String Bool :=
  if m.length ≠ m2.length then .ok false else rangeEqual m m2

/- Concrete states used by individual claims. -/

/-- A value-dependent comparator: less is v1 < v2 on the values. -/
def byValNat : Nat → Nat → Nat → Nat → Bool := fun _ _ v1 v2 => decide (v1 < v2)

/-- An empty SliceMap with the value comparator installed. -/
def emptyByVal : SliceMap Nat Nat := { items := none, order := [], lessF := some byValNat }

/-- State reached by Set(1, 5); Set(2, 10); Set(2, 20) under the value
comparator. -/
def c1State : SliceMap Nat Nat := ((emptyByVal.set 1 5).set 2 10).set 2 20

/-- State reached by Set(1, 1); Set(2, 2) under the value comparator; its
key order is [1, 2]. -/
def c2Base : SliceMap Nat Nat := (emptyByVal.set 1 1).set 2 2

/-- Map in key order [2, 1] (spec's [b:2, a:1], with b = 2, a = 1). -/
def c4Start : SliceMap Nat Nat := ((SliceMap.zeroValue Nat Nat).set 2 2).set 1 1

/-- Result of SetAt(1, 3, 3) on c4Start: key order [2, 3, 1] ([b, c, a]). -/
def c4M1 : SliceMap Nat Nat :=
  { items := some [(2, 2), (1, 1), (3, 3)], order := [2, 3, 1], lessF := none }

/-- Result of SetAt(-1, 4, 4) on c4M1: key 4 ("d") second-to-last. -/
def c4M2 : SliceMap Nat Nat :=
  { items := some [(2, 2), (1, 1), (3, 3), (4, 4)], order := [2, 3, 4, 1], lessF := none }

/-- Result of SetAt(-100, 5, 5) on c4M2: key 5 ("e") at position 0. -/
def c4M3 : SliceMap Nat Nat :=
  { items := some [(2, 2), (1, 1), (3, 3), (4, 4), (5, 5)],
    order := [5, 2, 3, 4, 1], lessF := none }

/-- Map in key order [1, 2, 3], for the existing-key positional case. -/
def c4E : SliceMap Nat Nat :=
  (((SliceMap.zeroValue Nat Nat).set 1 1).set 2 2).set 3 3

/-- State reached by Set(1, 1); Set(2, 1) under the value comparator: two
keys whose values tie under the comparator, key order [1, 2]. -/
def c7Tie : SliceMap Nat Nat := (emptyByVal.set 1 1).set 2 1

/-- A key comparator: less is k1 < k2 on the keys. -/
def byKeyNat : Nat → Nat → Nat → Nat → Bool := fun k1 k2 _ _ => decide (k1 < k2)

/-- A populated SliceMap with the key comparator installed. -/
def c8Pop : SliceMap Nat Nat :=
  { items := some [(5, 5), (7, 7)], order := [5, 7], lessF := some byKeyNat }

/- Helper lemmas about the embedding. -/

theorem sortSearchGo_eq_sortSearchAux (f : Nat → Bool) (fuel : Nat) :
    ∀ i j, j - i ≤ fuel → sortSearchGo f i j fuel = sortSearchAux f i j := by
  induction fuel with
  | zero =>
      intro i j h
      have hij : ¬ i < j := by omega
      rw [sortSearchGo, sortSearchAux]
      simp [hij]
  | succ fuel ih =>
      intro i j h
      rw [sortSearchGo, sortSearchAux]
      by_cases hij : i < j
      · have h2 : i ≤ (i + j) / 2 := Nat.le_div_iff_mul_le (by omega) |>.2 (by omega)
        have h3 : (i + j) / 2 < j := Nat.div_lt_of_lt_mul (by omega)
        by_cases hf : f ((i + j) / 2)
        · simp only [hij, if_true, hf]
          exact ih i ((i + j) / 2) (by omega)
        · simp only [hij, if_true, hf, if_false]
          exact ih ((i + j) / 2 + 1) j (by omega)
      · simp [hij]

theorem sortSearch_eq_sortSearchAux (n : Nat) (f : Nat → Bool) :
    sortSearch n f = sortSearchAux f 0 n :=
  sortSearchGo_eq_sortSearchAux f n 0 n (by omega)

theorem alookup_aset_self (l : List (K × V)) (k : K) (v : V) :
    alookup (aset l k v) k = some v := by
  induction l with
  | nil => simp [aset, alookup]
  | cons p rest ih =>
      obtain ⟨k2, v2⟩ := p
      by_cases h : k2 = k
      · simp [aset, alookup, h]
      · simp [aset, alookup, h, ih]

theorem alookup_aset_ne (l : List (K × V)) (k k2 : K) (v : V) (h : k2 ≠ k) :
    alookup (aset l k v) k2 = alookup l k2 := by
  have h2 : ¬(k = k2) := fun hx => h hx.symm
  induction l with
  | nil => simp [aset, alookup, h2]
  | cons p rest ih =>
      obtain ⟨k3, v3⟩ := p
      by_cases h3 : k3 = k
      · subst h3
        simp [aset, alookup, h2]
      · simp only [aset, if_neg h3, alookup]
        by_cases h4 : k3 = k2
        · simp [h4]
        · simp [h4, ih]

theorem alookup_aerase_self (l : List (K × V)) (k : K) :
    alookup (aerase l k) k = none := by
  induction l with
  | nil => simp [aerase, alookup]
  | cons p rest ih =>
      obtain ⟨k2, v2⟩ := p
      by_cases h : k2 = k
      · simpa [aerase, h] using ih
      · simpa [aerase, alookup, h] using ih

theorem not_mem_eraseFirst {l : List K} {k : K} (h : l.count k ≤ 1) :
    k ∉ eraseFirst l k := by
  induction l with
  | nil => simp [eraseFirst]
  | cons x xs ih =>
      by_cases hx : x = k
      · subst hx
        have hc : xs.count x = 0 := by
          have := List.count_cons_self x xs
          omega
        simp only [eraseFirst, if_pos rfl]
        exact (List.count_eq_zero.1 hc)
      · have hc : xs.count k ≤ 1 := by
          have := List.count_cons k x xs
          omega
        simp only [eraseFirst, if_neg hx, List.mem_cons]
        rintro (h1 | h2)
        · exact hx h1.symm
        · exact ih hc h2

/-- Claim C1 (code bug): the bijection invariant does not survive every
Set/Delete/SetAt sequence under every comparator. Starting from an empty
SliceMap with the value comparator, Set(1, 5); Set(2, 10); Set(2, 20) leaves
the ordered key sequence [2, 2]: a duplicate key, with key 1 still in the
backing mapping but absent from the sequence. The cause is Set's
delete-old-location binary search running with an oldVal variable that the
source never assigns, so it searches with the zero value. -/
theorem c1_bijection_failing_trace :
    c1State.keys = [2, 2] ∧ ¬ c1State.keys.Nodup ∧
    c1State.has 1 = true ∧ 1 ∉ c1State.keys ∧
    c1State.len = 2 := by decide

/-- Claim C2 (counterexample): under the value comparator, updating the
existing key 1 from value 1 to value 3 moves its position in Keys() from
index 0 to index 1, because Set removes the key and re-inserts it at the
slot the binary search picks for the new value. -/
theorem c2_counterexample :
    c2Base.keys = [1, 2] ∧
    (c2Base.set 1 3).get 1 = 3 ∧
    (c2Base.set 1 3).keys = [2, 1] := by decide

/-- Claim C2 (amended): with no comparator installed, Set on an existing key
updates the value and leaves the key order — hence the key's index in
Keys() — completely unchanged. -/
theorem c2_update_preserves_position (m : SliceMap K V) (k : K) (v : V)
    (hless : m.lessF = none) (hhas : m.has k = true) :
    (m.set k v).keys = m.keys ∧ (m.set k v).get k = v := by
  obtain ⟨mi, mo, ml⟩ := m
  simp only [SliceMap.has] at hhas
  simp only at hless
  subst hless
  constructor
  · simp [SliceMap.set, SliceMap.keys, hhas]
  · simp [SliceMap.set, SliceMap.get, aget, alookup_aset_self]

/-- Witness for c2_update_preserves_position at the map with items
[(1, 5)], order [1], no comparator, updating key 1 to 9. -/
theorem c2_update_preserves_position_witness :
    (({ items := some [(1, 5)], order := [1], lessF := none } : SliceMap Nat Nat).set 1 9).keys
        = [1] ∧
    (({ items := some [(1, 5)], order := [1], lessF := none } : SliceMap Nat Nat).set 1 9).get 1
        = 9 :=
  c2_update_preserves_position _ 1 9 rfl (by decide)

/-- Claim C3: with no comparator, Set of a fresh key appends it to the end
of the key order, so inserting three distinct fresh keys a, b, c into an
empty SliceMap yields Keys() = [a, b, c]. -/
theorem c3_fifo :
    (∀ (m : SliceMap K V) (k : K) (v : V), m.lessF = none → m.has k = false →
        (m.set k v).keys = m.keys ++ [k]) ∧
    (∀ (a b c : K) (va vb vc : V), a ≠ b → a ≠ c → b ≠ c →
        ((((SliceMap.zeroValue K V).set a va).set b vb).set c vc).keys = [a, b, c]) := by
  constructor
  · intro m k v hless hhas
    obtain ⟨mi, mo, ml⟩ := m
    simp only [SliceMap.has] at hhas
    simp only at hless
    subst hless
    simp [SliceMap.set, SliceMap.keys, hhas]
  · intro a b c va vb vc hab hac hbc
    simp [SliceMap.zeroValue, SliceMap.set, SliceMap.keys, alookup, aset, hab, hac, hbc]

/-- Witness for c3_fifo: appending fresh key 1 to a one-entry map, and the
insertion chain 1, 2, 3 on the zero value. -/
theorem c3_fifo_witness :
    ((({ items := some [(9, 9)], order := [9], lessF := none } : SliceMap Nat Nat).set 1 10).keys
        = [9] ++ [1]) ∧
    ((((SliceMap.zeroValue Nat Nat).set 1 11).set 2 12).set 3 13).keys = [1, 2, 3] :=
  ⟨c3_fifo.1 _ 1 10 rfl (by decide), c3_fifo.2 1 2 3 11 12 13 (by decide) (by decide) (by decide)⟩

/-- Claim C4: SetAt positional semantics without a comparator. On the map in
key order [2, 1] (spec's [b:2, a:1]): SetAt(1, 3, 3) gives order [2, 3, 1]
with GetAt(1) = 3; then SetAt(-1, 4, 4) places key 4 second-to-last; then
SetAt(-100, 5, 5), an index below -length, places key 5 at position 0. In
general an index at or past the length delegates to Set, and an index at or
below -length on a fresh key prepends it at position 0. An existing key is
deleted first, so SetAt(0, 3, 9) on order [1, 2, 3] moves key 3 to the
front. -/
theorem c4_setAt_semantics :
    (c4Start.keys = [2, 1] ∧
     c4Start.setAt 1 3 3 = Except.ok c4M1 ∧
     c4M1.keys = [2, 3, 1] ∧ c4M1.getAt 1 = 3 ∧
     c4M1.setAt (-1) 4 4 = Except.ok c4M2 ∧
     c4M2.keys = [2, 3, 4, 1] ∧
     c4M2.setAt (-100) 5 5 = Except.ok c4M3 ∧
     c4M3.keys = [5, 2, 3, 4, 1] ∧ c4M3.getKeyAt 0 = 5 ∧
     c4E.keys = [1, 2, 3] ∧
     c4E.setAt 0 3 9 = Except.ok
       { items := some [(1, 1), (2, 2), (3, 9)], order := [3, 1, 2], lessF := none } ∧
     (c4E.setAt 0 3 9).toOption.map (fun m => m.get 3) = some 9) ∧
    (∀ (m : SliceMap K V) (i : Int) (k : K) (v : V), m.lessF = none →
        (m.order.length : Int) ≤ i →
        m.setAt i k v = Except.ok (m.set k v)) ∧
    (∀ (m : SliceMap K V) (its : List (K × V)) (i : Int) (k : K) (v : V),
        m.lessF = none → m.items = some its → alookup its k = none →
        i < (m.order.length : Int) → i ≤ -(its.length : Int) →
        m.setAt i k v = Except.ok
          { items := some (aset its k v), order := k :: m.order, lessF := none }) := by
  refine ⟨⟨by decide, rfl, by decide, by decide, rfl, by decide, rfl, by decide, by decide,
    by decide, rfl, rfl⟩, ?_, ?_⟩
  · intro m i k v hless hge
    obtain ⟨mi, mo, ml⟩ := m
    simp only at hless
    subst hless
    simp only [SliceMap.setAt]
    rw [if_pos hge]
  · intro m its i k v hless hits hfresh hlt hle
    obtain ⟨mi, mo, ml⟩ := m
    simp only at hless hits hlt
    subst hless
    subst hits
    have h1 : ¬((mo.length : Int) ≤ i) := by omega
    simp only [SliceMap.setAt, Option.getD_some]
    rw [if_neg h1]
    simp [hfresh, mapLen, hle, insIdx]

/-- Witness for the two general parts of c4_setAt_semantics: index 5 on a
length-2 order delegates to Set, and index -100 with fresh key 7 prepends. -/
theorem c4_setAt_semantics_witness :
    c4Start.setAt 5 3 3 = Except.ok (c4Start.set 3 3) ∧
    c4Start.setAt (-100) 7 7 = Except.ok
      { items := some (aset [(2, 2), (1, 1)] 7 7), order := 7 :: c4Start.order,
        lessF := none } :=
  ⟨c4_setAt_semantics.2.1 c4Start 5 3 3 rfl (by decide),
   c4_setAt_semantics.2.2 c4Start [(2, 2), (1, 1)] (-100) 7 7 rfl rfl rfl
     (by decide) (by decide)⟩

/-- Claim C5 (counterexample): Delete and Clear are mutating operations, yet
on a nil receiver they return without faulting — Delete yields the zero
value and Clear returns silently — so it is not the case that every
mutating operation on a nil container faults. -/
theorem c5_counterexample :
    deleteN (none : Option (SliceMap Nat Nat)) 1 = Except.ok (0, none) ∧
    clearN (none : Option (SliceMap Nat Nat)) = Except.ok none :=
  ⟨rfl, rfl⟩

/-- Claim C5 (amended): every read-only operation (Get, Load, Has, GetAt,
GetKeyAt, Keys, Values, Len, Range, String) on a nil or zero-value
(never-written) SliceMap returns the documented empty or zero result
without faulting; Set on a nil receiver faults with a usage error; but the
mutating operations Delete and Clear on a nil receiver return silently
without faulting. -/
theorem c5_nil_safety :
    (∀ k : K, getN (none : Option (SliceMap K V)) k = default) ∧
    (∀ k : K, loadN (none : Option (SliceMap K V)) k = (default, false)) ∧
    (∀ k : K, hasN (none : Option (SliceMap K V)) k = false) ∧
    (∀ p : Int, getAtN (none : Option (SliceMap K V)) p = (default : V)) ∧
    (∀ p : Int, getKeyAtN (none : Option (SliceMap K V)) p = (default : K)) ∧
    keysN (none : Option (SliceMap K V)) = [] ∧
    valuesN (none : Option (SliceMap K V)) = [] ∧
    lenN (none : Option (SliceMap K V)) = 0 ∧
    (∀ f, rangeVisitsN (none : Option (SliceMap K V)) f = []) ∧
    (∀ fk fv, strReprN fk fv (none : Option (SliceMap K V)) = "") ∧
    (∀ k : K, getN (some (SliceMap.zeroValue K V)) k = default) ∧
    (∀ k : K, loadN (some (SliceMap.zeroValue K V)) k = (default, false)) ∧
    (∀ k : K, hasN (some (SliceMap.zeroValue K V)) k = false) ∧
    (∀ p : Int, getAtN (some (SliceMap.zeroValue K V)) p = (default : V)) ∧
    (∀ p : Int, getKeyAtN (some (SliceMap.zeroValue K V)) p = (default : K)) ∧
    keysN (some (SliceMap.zeroValue K V)) = [] ∧
    valuesN (some (SliceMap.zeroValue K V)) = [] ∧
    lenN (some (SliceMap.zeroValue K V)) = 0 ∧
    (∀ f, rangeVisitsN (some (SliceMap.zeroValue K V)) f = []) ∧
    (∀ fk fv, strReprN fk fv (some (SliceMap.zeroValue K V)) = "\x7b\x7d") ∧
    (∀ (k : K) (v : V), setN (none : Option (SliceMap K V)) k v
        = Except.error "cannot set a value on a nil SliceMap") ∧
    (∀ k : K, deleteN (none : Option (SliceMap K V)) k = Except.ok (default, none)) ∧
    clearN (none : Option (SliceMap K V)) = Except.ok none := by
  refine ⟨fun _ => rfl, fun _ => rfl, fun _ => rfl, fun _ => rfl, fun _ => rfl, rfl, rfl,
    rfl, fun _ => rfl, fun _ _ => rfl, fun _ => rfl, fun _ => rfl, fun _ => rfl, ?_, ?_,
    rfl, rfl, rfl, fun _ => rfl, fun _ _ => rfl, fun _ _ => rfl, fun _ => rfl, rfl⟩
  · intro p
    simp [getAtN, SliceMap.getAt, SliceMap.zeroValue]
  · intro p
    simp [getKeyAtN, SliceMap.getKeyAt, SliceMap.zeroValue]

/-- Claim C7 (counterexample): under the value comparator, on the map with
entries 1 maps to 1 and 2 maps to 1 (tied values, key order [1, 2]),
Delete(2) returns the removed value 1 and removes 2 from the mapping, but
the comparator-driven binary search removes key 1's slot from the ordered
sequence instead: afterwards the key order is [2], so key 2 was not removed
from the ordered sequence. -/
theorem c7_counterexample :
    c7Tie.keys = [1, 2] ∧ c7Tie.has 2 = true ∧
    (c7Tie.delete 2).1 = 1 ∧
    (c7Tie.delete 2).2.keys = [2] ∧
    2 ∈ (c7Tie.delete 2).2.keys ∧
    (c7Tie.delete 2).2.has 2 = false ∧
    (c7Tie.delete 2).2.has 1 = true ∧
    1 ∉ (c7Tie.delete 2).2.keys := by decide

/-- Claim C7 (amended): with no comparator installed, Delete of a present
key returns its value and removes the key from both the mapping and the
ordered sequence; for any SliceMap (with or without comparator), Delete of
an absent key returns the zero value and leaves the state — hence Len() and
the key order — unchanged. -/
theorem c7_delete_contract :
    (∀ (m : SliceMap K V) (k : K) (v : V), m.lessF = none →
        alookup (m.items.getD []) k = some v → m.order.count k ≤ 1 →
        (m.delete k).1 = v ∧ (m.delete k).2.has k = false ∧
        k ∉ (m.delete k).2.keys) ∧
    (∀ (m : SliceMap K V) (k : K), m.has k = false → m.delete k = (default, m)) := by
  constructor
  · intro m k v hless hlook hcount
    obtain ⟨mi, mo, ml⟩ := m
    simp only at hless hlook hcount
    subst hless
    refine ⟨?_, ?_, ?_⟩
    · simp [SliceMap.delete, hlook]
    · simp [SliceMap.delete, hlook, SliceMap.has, alookup_aerase_self]
    · simp only [SliceMap.delete, hlook, SliceMap.keys]
      exact not_mem_eraseFirst hcount
  · intro m k hhas
    obtain ⟨mi, mo, ml⟩ := m
    simp only [SliceMap.has] at hhas
    cases halook : alookup (mi.getD []) k with
    | none => simp [SliceMap.delete, halook]
    | some v =>
        rw [halook] at hhas
        simp at hhas

/-- Witness for c7_delete_contract: deleting present key 1 from the map
items [(1, 5)], order [1], and deleting absent key 2 from the same map. -/
theorem c7_delete_contract_witness :
    ((({ items := some [(1, 5)], order := [1], lessF := none } : SliceMap Nat Nat).delete 1).1
        = 5 ∧
     (({ items := some [(1, 5)], order := [1], lessF := none } : SliceMap Nat Nat).delete 1).2.has 1
        = false ∧
     1 ∉ (({ items := some [(1, 5)], order := [1], lessF := none } : SliceMap Nat Nat).delete 1).2.keys) ∧
    ({ items := some [(1, 5)], order := [1], lessF := none } : SliceMap Nat Nat).delete 2
      = (0, { items := some [(1, 5)], order := [1], lessF := none }) :=
  ⟨c7_delete_contract.1 _ 1 5 rfl rfl (by decide), c7_delete_contract.2 _ 2 rfl⟩

/-- Claim C9: on a zero-value (never written, non-nil) SliceMap, SetAt with
any negative index panics with an assignment to an entry in a nil map,
because only the index-at-or-past-length path delegates to Set; yet plain
Set on the same container succeeds by lazily allocating the backing map. -/
theorem c9_setAt_nil_map_panic :
    ∀ (i : Int) (k : K) (v : V), i < 0 →
      (SliceMap.zeroValue K V).setAt i k v
          = Except.error "assignment to entry in nil map" ∧
      ((SliceMap.zeroValue K V).set k v).has k = true := by
  intro i k v hi
  constructor
  · have h1 : ¬(((SliceMap.zeroValue K V).order.length : Int) ≤ i) := by
      simp only [SliceMap.zeroValue]
      simp
      omega
    have h2 : i ≤ -((mapLen (none : Option (List (K × V))) : Nat) : Int) := by
      simp [mapLen]
      omega
    simp only [SliceMap.zeroValue] at h1 ⊢
    simp only [SliceMap.setAt]
    rw [if_neg h1]
    simp [alookup, h2]
  · simp [SliceMap.set, SliceMap.zeroValue, SliceMap.has, aset, alookup]

/-- Witness for c9_setAt_nil_map_panic at index -1, key 5, value 7. -/
theorem c9_setAt_nil_map_panic_witness :
    (SliceMap.zeroValue Nat Nat).setAt (-1) 5 7
        = Except.error "assignment to entry in nil map" ∧
    ((SliceMap.zeroValue Nat Nat).set 5 7).has 5 = true :=
  c9_setAt_nil_map_panic (-1) 5 7 (by norm_num)

/-- Claim C6: encoding a SliceMap with MarshalBinary and decoding into a
fresh (zero-value) SliceMap succeeds and reproduces the same Keys() in the
same order, the same Values() in the same order, and the same Load result
for every key, while the comparator is not encoded and is absent after
decoding. -/
theorem c6_binary_roundtrip (m : SliceMap K V) :
    ∃ m2 : SliceMap K V,
      (SliceMap.zeroValue K V).unmarshalBinary m.marshalBinary = Except.ok m2 ∧
      m2.keys = m.keys ∧
      m2.values = m.values ∧
      (∀ k, m2.load k = m.load k) ∧
      m2.lessF = none :=
  ⟨{ items := some (m.items.getD []), order := m.order, lessF := none },
    rfl, rfl, rfl, fun _ => rfl, rfl⟩

/-- Claim C8: Clear empties a SliceMap (Len 0, Keys empty) but leaves the
installed sort function in place, so on the concrete populated map c8Pop
with the key comparator, Clear followed by Set(3, 30); Set(1, 10);
Set(2, 20) yields keys sorted by the comparator. -/
theorem c8_clear_frame :
    (∀ m : SliceMap K V, m.clear.lessF = m.lessF ∧ m.clear.len = 0 ∧ m.clear.keys = []) ∧
    c8Pop.clear.lessF = some byKeyNat ∧
    (((c8Pop.clear.set 3 30).set 1 10).set 2 20).keys = [1, 2, 3] ∧
    (((c8Pop.clear.set 3 30).set 1 10).set 2 20).values = [10, 20, 30] := by
  refine ⟨fun m => ⟨rfl, rfl, rfl⟩, rfl, ?_, ?_⟩ <;> decide

/-- Claim C10: equalValues delegates to the first argument's Equal method
when it has one and otherwise uses built-in ==, never consulting the second
argument's Equal method; consequently, for the maps mA (raw-slice values, no
Equal method) and mB (values of a user type whose Equal method compares
contents against raw slices too), mA.Equal(mB) is true while mB.Equal(mA)
is false. -/
theorem c10_equal_asymmetric :
    equalValues (GoVal.veq [1]) (GoVal.vslice [1]) = Except.ok true ∧
    equalValues (GoVal.vslice [1]) (GoVal.veq [1]) = Except.ok false ∧
    equalValues (GoVal.vslice [1]) (GoVal.vslice [1])
      = Except.error "runtime error: comparing uncomparable type" ∧
    stdEqual [(1, GoVal.vslice [1])] [(1, GoVal.veq [1])] = Except.ok true ∧
    stdEqual [(1, GoVal.veq [1])] [(1, GoVal.vslice [1])] = Except.ok false :=
  ⟨rfl, rfl, rfl, rfl, rfl⟩

end Goradd
